import Mathlib

/-!
Verification of the OCR resilience and document-synthesis layer of the
kindle-exporter repository, as a shallow embedding in Lean 4.

Each definition below is translated from one TypeScript source function:
  - `RunStateM`   : src/automation/runState.ts (run-state machine)
  - `LocalVision` : src/ocr/localVision.ts (retry + circuit breaker wrapper)
  - `BatchOcr`    : src/ocr/batchOcr.ts (batch orchestrator)
  - `Tesseract`   : src/ocr/tesseract.ts (hOCR word-geometry parser)
  - `SearchablePdf` : src/exporters/searchablePdf.ts (text-placement engine)
  - `Orchestrator`: src/orchestrator.ts (per-page capture/OCR loop)

Effects are embedded explicitly: wall-clock reads (Date.now()) become `Nat`
timestamp parameters, filesystem probes become boolean-valued environment
functions, and external calls (the backend, the browser) become environment
functions supplied to each operation.  Thrown exceptions become `Except`
results.  Mutable object fields become explicit state records threaded
through the functions.
-/

/-! ## Shared data model -/

/-- Bounding box of one recognized word, in image pixel coordinates
(`bbox` of `WordPosition` in src/types.ts). -/
structure BBox where
  x0 : Nat
  y0 : Nat
  x1 : Nat
  y1 : Nat
deriving DecidableEq, Repr

/-- One recognized word with geometry (`WordPosition` in src/types.ts). -/
structure WordPosition where
  text : String
  bbox : BBox
  confidence : Option Nat
deriving DecidableEq, Repr

/-- Per-page unit produced by capture (`PageChunk` in src/types.ts). -/
structure PageChunk where
  index : Nat
  page : Nat
  screenshot : String
deriving DecidableEq, Repr

/-- Per-page unit handed to exporters (`ContentChunk` in src/types.ts,
with the optional `wordPositions` extension used by the searchable-PDF
exporter). -/
structure ContentChunk where
  index : Nat
  page : Nat
  text : String
  screenshot : String
  wordPositions : Option (List WordPosition)
deriving DecidableEq, Repr

/-- JS `String.prototype.trim`: drop ASCII whitespace from both ends
(embedded structurally so concrete instances evaluate). -/
def jsTrim (s : String) : String :=
  String.mk
    (((s.toList.dropWhile Char.isWhitespace).reverse.dropWhile
        Char.isWhitespace).reverse)

namespace RunStateM

/-- Embeds `RunStatus` from src/types.ts. -/
inductive RunStatus where
  | inProgress
  | completed
  | failed
deriving DecidableEq, Repr

/-- Embeds `RunState` from src/types.ts.  Timestamps are abstract `Nat` ticks
standing for the ISO strings produced by `new Date().toISOString()`; the
optional presentation-only sub-records `metadata` and `stats` are not
modelled because no operation verified here reads or writes them. -/
structure RunState where
  version : String
  bookTitle : String
  asin : Option String
  startTime : Nat
  endTime : Option Nat
  status : RunStatus
  lastPage : Nat
  totalPages : Option Nat
  exportedPages : Nat
  captureMode : String
  ocrProvider : String
  stopReason : Option String
  ocrFailures : Nat
deriving DecidableEq, Repr

/-- Embeds `createRunState` from src/automation/runState.ts: fresh in-progress
state with `lastPage = 0`. -/
def createRunState (bookTitle : String) (asin : Option String)
    (captureMode : String) (ocrProvider : String) (now : Nat) : RunState :=
  { version := "0.1.0"
    bookTitle := bookTitle
    asin := asin
    startTime := now
    endTime := none
    status := RunStatus.inProgress
    lastPage := 0
    totalPages := none
    exportedPages := 0
    captureMode := captureMode
    ocrProvider := ocrProvider
    stopReason := none
    ocrFailures := 0 }

/-- The `Partial<RunState>` update record accepted by `updateRunState`:
`none` fields are absent from the spread and leave the state unchanged. -/
structure RunStateUpdates where
  status : Option RunStatus
  lastPage : Option Nat
  totalPages : Option (Option Nat)
  exportedPages : Option Nat
  endTime : Option (Option Nat)
  stopReason : Option (Option String)
deriving Repr

/-- An empty update record (no field present). -/
def noUpdates : RunStateUpdates :=
  { status := none, lastPage := none, totalPages := none
    exportedPages := none, endTime := none, stopReason := none }

/-- Embeds `updateRunState` from src/automation/runState.ts: object spread of the
updates over the state. -/
def updateRunState (state : RunState) (updates : RunStateUpdates) : RunState :=
  { state with
    status := updates.status.getD state.status
    lastPage := updates.lastPage.getD state.lastPage
    totalPages := updates.totalPages.getD state.totalPages
    exportedPages := updates.exportedPages.getD state.exportedPages
    endTime := updates.endTime.getD state.endTime
    stopReason := updates.stopReason.getD state.stopReason }

/-- Embeds `completeRunState` from src/automation/runState.ts: unconditionally
sets `status` to completed and stamps `endTime`. -/
def completeRunState (state : RunState) (now : Nat) : RunState :=
  { state with status := RunStatus.completed, endTime := some now }

/-- Embeds `failRunState` from src/automation/runState.ts: unconditionally sets
`status` to failed, stamps `endTime` and records the stop reason. -/
def failRunState (state : RunState) (reason : String) (now : Nat) : RunState :=
  { state with
    status := RunStatus.failed
    endTime := some now
    stopReason := some reason }

end RunStateM

namespace LocalVision

/-- Circuit breaker states (`CircuitState` in src/ocr/localVision.ts). -/
inductive CircuitState where
  | CLOSED
  | OPEN
  | HALF_OPEN
deriving DecidableEq, Repr

/-- Running request counters (`OcrStats` in src/ocr/localVision.ts); the
`errors` map is an association list from error type to count, and
durations are abstract millisecond ticks. -/
structure OcrStats where
  totalRequests : Nat
  successfulRequests : Nat
  failedRequests : Nat
  retriedRequests : Nat
  totalRetries : Nat
  totalDuration : Nat
  averageDuration : ℚ
  errors : List (String × Nat)
deriving DecidableEq, Repr

/-- Circuit breaker record (`CircuitBreaker` in src/ocr/localVision.ts). -/
structure CircuitBreaker where
  state : CircuitState
  failureCount : Nat
  lastFailureTime : Nat
  nextAttemptTime : Nat
deriving DecidableEq, Repr

/-- The resilience-relevant part of `ModelConfig` in src/ocr/localVision.ts. -/
structure ModelConfig where
  maxRetries : Nat
  retryDelay : Nat
  circuitBreakerThreshold : Nat
  circuitBreakerTimeout : Nat
deriving DecidableEq, Repr

/-- The values installed by the constructor: maxRetries 3, base delay
1000 ms, threshold 5 failures, cooldown 60000 ms. -/
def defaultConfig : ModelConfig :=
  { maxRetries := 3, retryDelay := 1000
    circuitBreakerThreshold := 5, circuitBreakerTimeout := 60000 }

/-- Mutable provider state: `this.stats` and `this.circuitBreaker`. -/
structure ProviderState where
  stats : OcrStats
  circuitBreaker : CircuitBreaker
deriving DecidableEq, Repr

/-- The stats record installed by the constructor. -/
def initialStats : OcrStats :=
  { totalRequests := 0, successfulRequests := 0, failedRequests := 0
    retriedRequests := 0, totalRetries := 0, totalDuration := 0
    averageDuration := 0, errors := [] }

/-- The circuit breaker record installed by the constructor. -/
def initialBreaker : CircuitBreaker :=
  { state := CircuitState.CLOSED, failureCount := 0
    lastFailureTime := 0, nextAttemptTime := 0 }

/-- Provider state right after construction. -/
def initialState : ProviderState :=
  { stats := initialStats, circuitBreaker := initialBreaker }

/-- Exceptions thrown by `ocr` (`OcrProcessingError` in src/ocr/types.ts,
carrying the offending image path, or the string used when the circuit
breaker rejects the call, and the cause message). -/
inductive OcrError where
  | processing (path : String) (msg : String)
deriving DecidableEq, Repr

/-- Message of the error thrown while the breaker is open; the retry hint
is `Math.ceil((nextAttemptTime - now) / 1000)` seconds. -/
def openMsg (nextAttemptTime now : Nat) : String :=
  "Circuit breaker is OPEN. Retry in " ++
    toString ((nextAttemptTime - now + 999) / 1000) ++ "s"

/-- Embeds `checkCircuitBreaker` from src/ocr/localVision.ts: while OPEN, either
move to HALF_OPEN (cooldown elapsed, failure count reset) or throw. -/
def checkCircuitBreaker (now : Nat) (cb : CircuitBreaker) :
    Except OcrError CircuitBreaker :=
  if cb.state = CircuitState.OPEN then
    if now ≥ cb.nextAttemptTime then
      Except.ok { cb with state := CircuitState.HALF_OPEN, failureCount := 0 }
    else
      Except.error (OcrError.processing "circuit-breaker"
        (openMsg cb.nextAttemptTime now))
  else
    Except.ok cb

/-- Embeds `recordSuccess` from src/ocr/localVision.ts. -/
def recordSuccess (duration : Nat) (s : ProviderState) : ProviderState :=
  let stats := s.stats
  let stats := { stats with
    successfulRequests := stats.successfulRequests + 1
    totalDuration := stats.totalDuration + duration }
  let stats := { stats with
    averageDuration := (stats.totalDuration : ℚ) / (stats.successfulRequests : ℚ) }
  let cb := s.circuitBreaker
  let cb :=
    if cb.state = CircuitState.HALF_OPEN then
      { cb with state := CircuitState.CLOSED }
    else cb
  { stats := stats, circuitBreaker := { cb with failureCount := 0 } }

/-- Bump the per-error-type counter in the stats map
(`this.stats.errors.set(errorType, (get(errorType) || 0) + 1)`). -/
def bumpError (errors : List (String × Nat)) (key : String) : List (String × Nat) :=
  match errors with
  | [] => [(key, 1)]
  | (k, n) :: rest =>
      if k = key then (k, n + 1) :: rest else (k, n) :: bumpError rest key

/-- Embeds `error.message.split(':')[0] || 'unknown'`. -/
def errorType (msg : String) : String :=
  match msg.splitOn ":" with
  | [] => "unknown"
  | t :: _ => if t = "" then "unknown" else t

/-- Embeds `recordFailure` from src/ocr/localVision.ts: count the failure, stamp
the time, classify the error, and open the breaker when the consecutive
failure count reaches the threshold. -/
def recordFailure (cfg : ModelConfig) (msg : String) (now : Nat)
    (s : ProviderState) : ProviderState :=
  let stats := { s.stats with
    failedRequests := s.stats.failedRequests + 1
    errors := bumpError s.stats.errors (errorType msg) }
  let cb := { s.circuitBreaker with
    failureCount := s.circuitBreaker.failureCount + 1
    lastFailureTime := now }
  let cb :=
    if cb.failureCount ≥ cfg.circuitBreakerThreshold then
      { cb with
        state := CircuitState.OPEN
        nextAttemptTime := now + cfg.circuitBreakerTimeout }
    else cb
  { stats := stats, circuitBreaker := cb }

/-- Outcome of one backend attempt (one `ollama.chat` call): the raw
response content, or the message of the thrown error. -/
inductive AttemptResult where
  | success (content : String)
  | failure (msg : String)

/-- The retry loop of `ocr` in src/ocr/localVision.ts, attempts indexed
`0..maxRetries`.  `remaining` counts the loop iterations left (initially
`maxRetries + 1`); the `0` case is the dead fallthrough after the loop.
`Date.now()` is modelled by the call timestamp `now`, so the recorded
success duration is `0`; backoff sleeping does not advance the model
clock. -/
def ocrGo (cfg : ModelConfig) (env : Nat → AttemptResult) (imagePath : String)
    (now : Nat) :
    Nat → Nat → Nat → ProviderState → Except OcrError String × ProviderState
  | 0, _, _, s =>
      (Except.error (OcrError.processing imagePath "unknown"),
       recordFailure cfg "unknown" now s)
  | remaining + 1, attempt, retryCount, s =>
      match env attempt with
      | AttemptResult.success content =>
          let s := recordSuccess 0 s
          let s :=
            if retryCount > 0 then
              { s with stats :=
                { s.stats with retriedRequests := s.stats.retriedRequests + 1 } }
            else s
          (Except.ok (jsTrim content), s)
      | AttemptResult.failure msg =>
          let s := { s with stats :=
            { s.stats with totalRetries := s.stats.totalRetries + 1 } }
          if attempt = cfg.maxRetries then
            (Except.error (OcrError.processing imagePath msg),
             recordFailure cfg msg now s)
          else
            ocrGo cfg env imagePath now remaining (attempt + 1) (retryCount + 1) s

/-- Embeds `ocr` from src/ocr/localVision.ts, on an already-initialized provider:
existence check, circuit-breaker check, `totalRequests` increment, then
the retry loop.  `fileExists` embeds `existsSync(imagePath)` and `env`
gives the outcome of each backend attempt. -/
def ocr (cfg : ModelConfig) (env : Nat → AttemptResult) (fileExists : Bool)
    (imagePath : String) (now : Nat) (s : ProviderState) :
    Except OcrError String × ProviderState :=
  if fileExists = false then
    (Except.error (OcrError.processing imagePath
      ("Image file not found: " ++ imagePath)), s)
  else
    match checkCircuitBreaker now s.circuitBreaker with
    | Except.error e => (Except.error e, s)
    | Except.ok cb =>
        let s := { s with circuitBreaker := cb }
        let s := { s with stats :=
          { s.stats with totalRequests := s.stats.totalRequests + 1 } }
        ocrGo cfg env imagePath now (cfg.maxRetries + 1) 0 0 s

/-- A backend whose every attempt fails with message `msg`. -/
def failEnv (msg : String) : Nat → AttemptResult :=
  fun _ => AttemptResult.failure msg

/-- Provider state after a sequence of all-retries-exhausted failing calls
made at the given timestamps, starting from the freshly constructed
state. -/
def afterFailedCalls (cfg : ModelConfig) (msg : String) (imagePath : String)
    (times : List Nat) : ProviderState :=
  times.foldl (fun s t => (ocr cfg (failEnv msg) true imagePath t s).2)
    initialState

/-- Index of the first successful attempt at or after `start`, looking at
most `fuel` attempts ahead.  Measurement function used to state the retry
accounting of `ocr`. -/
def firstSuccessFrom (env : Nat → AttemptResult) : Nat → Nat → Option Nat
  | _, 0 => none
  | start, fuel + 1 =>
      match env start with
      | AttemptResult.success _ => some start
      | AttemptResult.failure _ => firstSuccessFrom env (start + 1) fuel

/-- Effect of `recordFailure` on the breaker record alone. -/
def failedCallBreaker (cfg : ModelConfig) (now : Nat)
    (cb : CircuitBreaker) : CircuitBreaker :=
  let cb1 := { cb with
    failureCount := cb.failureCount + 1, lastFailureTime := now }
  if cfg.circuitBreakerThreshold ≤ cb1.failureCount then
    { cb1 with
      state := CircuitState.OPEN
      nextAttemptTime := now + cfg.circuitBreakerTimeout }
  else cb1

/-- The circuit state after `checkCircuitBreaker` runs (unchanged when the
check throws). -/
def postCheckState (now : Nat) (cb : CircuitBreaker) : CircuitState :=
  match checkCircuitBreaker now cb with
  | Except.ok cb' => cb'.state
  | Except.error _ => cb.state

/-- The transitions the specification allows for `CircuitState`, plus
self-transitions (staying in a state). -/
def allowedTransition (a b : CircuitState) : Prop :=
  a = b ∨
  (a = CircuitState.CLOSED ∧ b = CircuitState.OPEN) ∨
  (a = CircuitState.OPEN ∧ b = CircuitState.HALF_OPEN) ∨
  (a = CircuitState.HALF_OPEN ∧ b = CircuitState.CLOSED) ∨
  (a = CircuitState.HALF_OPEN ∧ b = CircuitState.OPEN)

/-- A provider state whose breaker is probing (HALF_OPEN, failure count
freshly reset as `checkCircuitBreaker` leaves it). -/
def halfOpenState : ProviderState :=
  { stats := initialStats
    circuitBreaker :=
      { state := CircuitState.HALF_OPEN, failureCount := 0
        lastFailureTime := 0, nextAttemptTime := 0 } }

end LocalVision

namespace BatchOcr

/-- Options of `performBatchOcr` (`BatchOcrOptions` in src/ocr/batchOcr.ts);
the progress callback is omitted (write-only reporting). -/
structure BatchOcrOptions where
  concurrency : Nat
  continueOnError : Bool
  retryFailures : Bool
  maxRetries : Nat
deriving DecidableEq, Repr

/-- The defaults destructured at the top of `performBatchOcr`. -/
def defaultOptions : BatchOcrOptions :=
  { concurrency := 4, continueOnError := true
    retryFailures := true, maxRetries := 3 }

/-- Error-message fragments that suppress retrying, from `shouldRetry`. -/
def noRetryPatterns : List String :=
  ["file not found", "invalid image", "api key", "unauthorized",
   "quota exceeded", "model not found"]

/-- Embeds `String.prototype.includes` on character lists. -/
def includesSub (hay needle : List Char) : Bool :=
  needle.isPrefixOf hay ||
    (match hay with
     | [] => false
     | _ :: rest => includesSub rest needle)

/-- Embeds `message.includes(pattern)`. -/
def strIncludes (hay needle : String) : Bool :=
  includesSub hay.toList needle.toList

/-- Embeds `shouldRetry` from src/ocr/batchOcr.ts: retry unless the lowercased
message contains one of the no-retry fragments. -/
def shouldRetry (msg : String) : Bool :=
  !(noRetryPatterns.any fun pat => strIncludes msg.toLower pat)

/-- The per-item retry loop inside `performBatchOcr`
(`for (attempt = 0; attempt < maxRetries && !success; attempt++)`).
`env path attempt` is the outcome of the `provider.ocr(path)` call at that
attempt; the result is (text on success, last error message, the list of
provider calls made); backoff sleeping is not observable. -/
def runAttempts (env : String → Nat → Except String String)
    (retryFailures : Bool) (path : String) :
    Nat → Nat → Option String → Option String × Option String × List String
  | 0, _, lastError => (none, lastError, [])
  | remaining + 1, attempt, lastError =>
      match env path attempt with
      | Except.ok text => (some text, lastError, [path])
      | Except.error msg =>
          if retryFailures = false ∨ shouldRetry msg = false then
            (none, some msg, [path])
          else
            let r := runAttempts env retryFailures path remaining
              (attempt + 1) (some msg)
            (r.1, r.2.1, path :: r.2.2)

/-- The `pMap` body of `performBatchOcr`, modelled as a sequential pass
(the claims proved below are order-insensitive counting properties).
Returns (results, failures, provider-call log, abort message when
`continueOnError` is false and an item exhausted its retries). -/
def processAll (env : String → Nat → Except String String)
    (opts : BatchOcrOptions) :
    List String →
      List (String × String) × List (String × String) × List String ×
        Option String
  | [] => ([], [], [], none)
  | p :: rest =>
      let a := runAttempts env opts.retryFailures p opts.maxRetries 0 none
      match a.1 with
      | some text =>
          let r := processAll env opts rest
          ((p, text) :: r.1, r.2.1, a.2.2 ++ r.2.2.1, r.2.2.2)
      | none =>
          let fmsg := a.2.1.getD "Unknown error"
          if opts.continueOnError then
            let r := processAll env opts rest
            (r.1, (p, fmsg) :: r.2.1, a.2.2 ++ r.2.2.1, r.2.2.2)
          else
            ([], [(p, fmsg)], a.2.2, some fmsg)

/-- Embeds `stats` of `BatchOcrResult` in src/ocr/batchOcr.ts. -/
structure BatchStats where
  total : Nat
  successful : Nat
  failed : Nat
  totalTime : Nat
  avgTimePerPage : ℚ
deriving DecidableEq, Repr

/-- Embeds `BatchOcrResult` from src/ocr/batchOcr.ts. -/
structure BatchOcrResult where
  results : List (String × String)
  failures : List (String × String)
  stats : BatchStats
deriving DecidableEq, Repr

/-- Embeds `performBatchOcr` from src/ocr/batchOcr.ts: missing files are recorded
as failures up front and filtered out, the valid paths are processed with
per-item retries, and the stats are assembled at the end.  `fileExists`
embeds `existsSync`; the second component of the result is the log of
`provider.ocr` calls made (one entry per attempt).  The abort (thrown
`OcrProcessingError`) carries the cause message. -/
def performBatchOcr (fileExists : String → Bool)
    (env : String → Nat → Except String String)
    (imagePaths : List String) (opts : BatchOcrOptions)
    (startTime endTime : Nat) :
    Except String BatchOcrResult × List String :=
  let missingFailures := imagePaths.filterMap
    (fun p => if fileExists p then none else some (p, "File not found"))
  let validPaths := imagePaths.filter (fun p => fileExists p)
  let r := processAll env opts validPaths
  match r.2.2.2 with
  | some msg => (Except.error msg, r.2.2.1)
  | none =>
      let failures := missingFailures ++ r.2.1
      let totalTime := endTime - startTime
      let successful := r.1.length
      (Except.ok
        { results := r.1
          failures := failures
          stats :=
            { total := imagePaths.length
              successful := successful
              failed := failures.length
              totalTime := totalTime
              avgTimePerPage :=
                if successful > 0 then (totalTime : ℚ) / (successful : ℚ)
                else 0 } },
       r.2.2.1)

/-- A filesystem where only "b" is missing. -/
def wFileExists : String → Bool := fun p => !(p == "b")

/-- A backend that recognizes every image on the first attempt. -/
def wEnv : String → Nat → Except String String := fun _ _ => Except.ok "text"

end BatchOcr

namespace SearchablePdf

/-- Embeds `calculateFontSize` from src/exporters/searchablePdf.ts, with IEEE
doubles embedded as rationals: target 80 chars per line, initial size from
the page width, shrink to fit the estimated height, clamp to 4..14 pt. -/
def calculateFontSize (text : String) (pageWidth pageHeight : ℚ) : ℚ :=
  let targetCharsPerLine : ℚ := 80
  let margin : ℚ := 10
  let availableWidth : ℚ := pageWidth - 2 * margin
  let charWidthFactor : ℚ := 1 / 2
  let fontSize : ℚ := availableWidth / (targetCharsPerLine * charWidthFactor)
  let totalChars : ℚ := (text.length : ℚ)
  let estimatedLines : ℚ := ((Int.ceil (totalChars / targetCharsPerLine) : ℤ) : ℚ)
  let lineHeightFactor : ℚ := 12 / 10
  let requiredHeight : ℚ := estimatedLines * fontSize * lineHeightFactor
  let availableHeight : ℚ := pageHeight - 2 * margin
  let fontSize2 : ℚ :=
    if requiredHeight > availableHeight then
      fontSize * (availableHeight / requiredHeight)
    else fontSize
  max 4 (min 14 fontSize2)

/-- Abstract PDFKit operations emitted while building one page; layout
option records (wrap width, line gap, lineBreak) are elided, the
positional arguments are kept. -/
inductive PdfOp where
  | addPage (width height : Nat)
  | image (path : String) (x y : ℚ) (width height : Nat)
  | save
  | restore
  | rawContent (s : String)
  | setFontSize (size : ℚ)
  | drawText (text : String) (x y : ℚ)
deriving DecidableEq, Repr

/-- Embeds `addInvisibleTextLayer` from src/exporters/searchablePdf.ts: invisible
rendering mode, computed font size, one text block at the 10pt margin. -/
def addInvisibleTextLayer (text : String) (pageWidth pageHeight : Nat) :
    List PdfOp :=
  [PdfOp.save, PdfOp.rawContent "3 Tr",
   PdfOp.setFontSize (calculateFontSize text (pageWidth : ℚ) (pageHeight : ℚ)),
   PdfOp.drawText text 10 10, PdfOp.restore]

/-- Embeds `addPositionedTextLayer` from src/exporters/searchablePdf.ts: each
word at its box origin with glyph size `0.85 × boxHeight` clamped to
6..72 (the box height is computed as a JS number, so a reversed box gives
a negative height that the lower clamp absorbs). -/
def addPositionedTextLayer (wordPositions : List WordPosition) : List PdfOp :=
  [PdfOp.save, PdfOp.rawContent "3 Tr"] ++
  (wordPositions.flatMap fun w =>
    let wordHeight : ℚ := (w.bbox.y1 : ℚ) - (w.bbox.y0 : ℚ)
    let fontSize : ℚ := max 6 (min 72 (wordHeight * (17 / 20)))
    [PdfOp.setFontSize fontSize,
     PdfOp.drawText w.text (w.bbox.x0 : ℚ) (w.bbox.y0 : ℚ)]) ++
  [PdfOp.restore]

/-- Embeds `addSearchablePage` from src/exporters/searchablePdf.ts: read the
image dimensions (`dims` embeds `sizeOf`, with the zero/undefined check
throwing), add a page of exactly that size, draw the screenshot, and add
the invisible layer only when the text is non-empty after trimming —
positioned when word geometry is present, block mode otherwise. -/
def addSearchablePage (dims : String → Option (Nat × Nat))
    (chunk : ContentChunk) : Except String (List PdfOp) :=
  match dims chunk.screenshot with
  | none =>
      Except.error ("Could not determine dimensions for " ++ chunk.screenshot)
  | some (w, h) =>
      if w = 0 ∨ h = 0 then
        Except.error ("Could not determine dimensions for " ++ chunk.screenshot)
      else
        Except.ok
          ([PdfOp.addPage w h, PdfOp.image chunk.screenshot 0 0 w h] ++
           (if chunk.text ≠ "" ∧ 0 < (jsTrim chunk.text).length then
              match chunk.wordPositions with
              | some ws =>
                  if 0 < ws.length then addPositionedTextLayer ws
                  else addInvisibleTextLayer chunk.text w h
              | none => addInvisibleTextLayer chunk.text w h
            else []))

/-- A page's worth of text: 81 identical characters (just over one
estimated 80-character line). -/
def longText : String := String.mk (List.replicate 81 'a')

/-- Image-dimension probe returning 100×200 for every path. -/
def wDims : String → Option (Nat × Nat) := fun _ => some (100, 200)

/-- A chunk with whitespace-only text but a non-empty word-position
list. -/
def wChunk : ContentChunk :=
  { index := 0, page := 1, text := "  \n ", screenshot := "p1.png"
    wordPositions := some [{ text := "ghost", bbox := ⟨1, 2, 3, 4⟩
                             confidence := some 90 }] }

end SearchablePdf

namespace Orchestrator

/-- Environment of the per-page capture/OCR loop in src/orchestrator.ts:
the OCR provider keyed by screenshot path, and the abstract browser —
`isLast` and `navSuccess` embed `isLastPage` / `navigateNextPage` at a
given displayed page, `reportedPage` embeds `getCurrentPageNumber`, and
`screenshotPath` is the file `capturePage` writes for a page number. -/
structure CaptureEnv where
  ocrResult : String → Except String String
  isLast : Nat → Bool
  navSuccess : Nat → Bool
  reportedPage : Nat → Option Nat
  screenshotPath : Nat → String

/-- Embeds `capturePage` from src/automation/capture.ts: screenshot written for
the given page number, chunk with 0-based index (capture itself is an
always-succeeding collaborator here). -/
def capturePage (env : CaptureEnv) (pageNumber : Nat) : PageChunk :=
  { index := pageNumber - 1, page := pageNumber
    screenshot := env.screenshotPath pageNumber }

/-- The orchestrator options consumed by the capture loop; `maxPages = 0`
models the absent (falsy) option, matching the JS truthiness test. -/
structure OrchestratorOptions where
  bookTitle : Option String
  asin : Option String
  dryRun : Bool
  maxPages : Nat
deriving DecidableEq, Repr

/-- The `while (true)` capture loop of `captureAndOcrPages`
(src/orchestrator.ts): read the current page number (JS `|| pageNumber`
falls back on null or 0), capture, OCR (the call is NOT wrapped in a
try/catch — an OCR error propagates out), append the chunk, stop on
`maxPages`/last page/navigation failure, else advance.  `fuel` bounds the
unbounded source loop; the abstract browser advances one page per
navigation. -/
def captureLoop (env : CaptureEnv) (opts : OrchestratorOptions) :
    Nat → Nat → Nat → List ContentChunk → Except String (List ContentChunk)
  | 0, _, _, pages => Except.ok pages
  | fuel + 1, browserPage, pageNumber, pages =>
      let currentPage :=
        match env.reportedPage browserPage with
        | some n => if n = 0 then pageNumber else n
        | none => pageNumber
      let pageChunk := capturePage env currentPage
      match (if opts.dryRun then Except.ok "" else
          env.ocrResult pageChunk.screenshot) with
      | Except.error e => Except.error e
      | Except.ok text =>
          let contentChunk : ContentChunk :=
            { index := pageChunk.index, page := pageChunk.page
              text := text, screenshot := pageChunk.screenshot
              wordPositions := none }
          let pages := pages ++ [contentChunk]
          if (opts.maxPages ≠ 0 ∧ opts.maxPages ≤ pages.length) ∨
              env.isLast browserPage = true then
            Except.ok pages
          else if env.navSuccess browserPage = false then
            Except.ok pages
          else
            captureLoop env opts fuel (browserPage + 1) (pageNumber + 1) pages

/-- Browser page displayed after the resume pre-navigation of
`captureAndOcrPages`: the book opens on page 1 and, when `startPage > 1`,
the loop `for (i = 1; i < startPage; i++) navigateNextPage(...)` advances
`startPage - 1` pages, ignoring the returned success flag as the source
does. -/
def resumeStart (startPage : Nat) : Nat :=
  if startPage > 1 then 1 + (startPage - 1) else 1

/-- Embeds `captureAndOcrPages` from src/orchestrator.ts: local page counter
`startPage || 1`, resume pre-navigation, then the capture loop with an
empty page list. -/
def captureAndOcrPages (env : CaptureEnv) (opts : OrchestratorOptions)
    (startPage fuel : Nat) : Except String (List ContentChunk) :=
  let pageNumber := if startPage = 0 then 1 else startPage
  captureLoop env opts fuel (resumeStart startPage) pageNumber []

/-- Embeds `OrchestratorResult` (success flag, title, page count, error). -/
structure OrchestratorResult where
  success : Bool
  bookTitle : String
  totalPages : Nat
  error : Option String
deriving DecidableEq, Repr

/-- Control-flow skeleton of `orchestrateBookExport` (src/orchestrator.ts)
around run state and capture: browser, metadata extraction and the format
exporters are abstracted as succeeding collaborators (`metaTitle` stands
for `metadata.meta.title`, `ocrEngine` for the configured provider).
`existingState` is what `loadRunState` returned.  On success the loaded or
fresh state is updated and completed; when the capture loop throws, the
catch block builds a FRESH run state, fails it and saves it — but only
when `options.bookTitle` was provided.  Returns (result, saved final run
state). -/
def orchestrateBookExport (env : CaptureEnv) (opts : OrchestratorOptions)
    (metaTitle ocrEngine : String)
    (existingState : Option RunStateM.RunState) (now fuel : Nat) :
    OrchestratorResult × Option RunStateM.RunState :=
  let bookTitle := opts.bookTitle.getD metaTitle
  let runState := existingState.getD
    (RunStateM.createRunState bookTitle opts.asin "ocr" ocrEngine now)
  match captureAndOcrPages env opts runState.lastPage fuel with
  | Except.ok pages =>
      let runState := RunStateM.updateRunState runState
        { RunStateM.noUpdates with
          totalPages := some (some pages.length)
          exportedPages := some pages.length }
      let runState := RunStateM.completeRunState runState now
      ({ success := true, bookTitle := bookTitle
         totalPages := pages.length, error := none }, some runState)
  | Except.error msg =>
      match opts.bookTitle with
      | some t =>
          ({ success := false, bookTitle := t, totalPages := 0
             error := some msg },
           some (RunStateM.failRunState
             (RunStateM.createRunState t opts.asin "ocr" ocrEngine now)
             msg now))
      | none =>
          ({ success := false, bookTitle := "Unknown", totalPages := 0
             error := some msg }, none)

/-- A run where OCR always fails unrecoverably. -/
def c5Env : CaptureEnv :=
  { ocrResult := fun _ => Except.error "ocr boom"
    isLast := fun _ => false
    navSuccess := fun _ => true
    reportedPage := fun p => some p
    screenshotPath := fun _ => "shot.png" }

/-- Options naming the book, not a dry run, no page cap. -/
def c5Opts : OrchestratorOptions :=
  { bookTitle := some "Book", asin := none, dryRun := false, maxPages := 0 }

/-- A run where every page is recognized, page 9 is the last page, and
navigation always succeeds. -/
def c6Env : CaptureEnv :=
  { ocrResult := fun _ => Except.ok "text"
    isLast := fun p => decide (9 ≤ p)
    navSuccess := fun _ => true
    reportedPage := fun p => some p
    screenshotPath := fun _ => "shot.png" }

/-- Options for the resume scenario. -/
def c6Opts : OrchestratorOptions :=
  { bookTitle := some "Book", asin := none, dryRun := false, maxPages := 0 }

/-- The pages produced in the C6 resume scenario. -/
def c6Pages : List ContentChunk :=
  [{ index := 6, page := 7, text := "text", screenshot := "shot.png"
     wordPositions := none },
   { index := 7, page := 8, text := "text", screenshot := "shot.png"
     wordPositions := none },
   { index := 8, page := 9, text := "text", screenshot := "shot.png"
     wordPositions := none }]

end Orchestrator

namespace Tesseract

/-- A regex character class: a set of characters or its complement. -/
inductive CharCls where
  | pos (cs : List Char)
  | neg (cs : List Char)
deriving DecidableEq, Repr

/-- Whether a character belongs to the class. -/
def CharCls.matches : CharCls → Char → Bool
  | CharCls.pos cs, c => cs.contains c
  | CharCls.neg cs, c => !(cs.contains c)

/-- One token of the regexes used by `parseHocr`: a literal character, a
single class occurrence, a greedy star, a lazy star, or a greedy plus of
a class — the only constructs the three source regexes use.  `cap` names
the capture group filled by the quantified token. -/
inductive RTok where
  | lit (c : Char)
  | one (cls : CharCls)
  | starG (cls : CharCls) (cap : Option Nat)
  | starL (cls : CharCls) (cap : Option Nat)
  | plusG (cls : CharCls) (cap : Option Nat)
deriving DecidableEq, Repr

/-- Length of the longest prefix of `s` inside the class. -/
def maxRun (cls : CharCls) : List Char → Nat
  | [] => 0
  | c :: rest => if cls.matches c then maxRun cls rest + 1 else 0

/-- First candidate (in order) on which `f` succeeds. -/
def firstSome {α β : Type} : List α → (α → Option β) → Option β
  | [], _ => none
  | a :: rest, f =>
      match f a with
      | some b => some b
      | none => firstSome rest f

/-- Consumption candidates for a greedy star: longest first. -/
def greedyIdxs (k : Nat) : List Nat := (List.range (k + 1)).reverse

/-- Consumption candidates for a lazy star: shortest first. -/
def lazyIdxs (k : Nat) : List Nat := List.range (k + 1)

/-- Consumption candidates for a greedy plus: longest first, at least
one character. -/
def plusIdxs (k : Nat) : List Nat := (List.range k).reverse.map (· + 1)

/-- Record a captured substring (later entries shadow earlier ones, as a
JS capture group keeps its last value). -/
def setCap (caps : List (Nat × List Char)) :
    Option Nat → List Char → List (Nat × List Char)
  | none, _ => caps
  | some g, consumed => (g, consumed) :: caps

/-- Backtracking matcher for a token list against a prefix of `s`,
following the JS NFA order (greedy tries longest first, lazy shortest
first); returns the unconsumed remainder and the captures. -/
def matchToks : List RTok → List Char → List (Nat × List Char) →
    Option (List Char × List (Nat × List Char))
  | [], s, caps => some (s, caps)
  | RTok.lit c :: rest, s, caps =>
      match s with
      | [] => none
      | c' :: s' => if c' = c then matchToks rest s' caps else none
  | RTok.one cls :: rest, s, caps =>
      match s with
      | [] => none
      | c' :: s' => if cls.matches c' then matchToks rest s' caps else none
  | RTok.starG cls cap :: rest, s, caps =>
      firstSome (greedyIdxs (maxRun cls s)) fun i =>
        matchToks rest (s.drop i) (setCap caps cap (s.take i))
  | RTok.starL cls cap :: rest, s, caps =>
      firstSome (lazyIdxs (maxRun cls s)) fun i =>
        matchToks rest (s.drop i) (setCap caps cap (s.take i))
  | RTok.plusG cls cap :: rest, s, caps =>
      firstSome (plusIdxs (maxRun cls s)) fun i =>
        matchToks rest (s.drop i) (setCap caps cap (s.take i))

/-- Leftmost match of the (unanchored) regex in `s`, as `RegExp.exec`
finds it: try each start position left to right; returns the remainder
after the match end and the captures. -/
def searchA (re : List RTok) :
    List Char → Option (List Char × List (Nat × List Char))
  | [] =>
      match matchToks re [] [] with
      | some r => some r
      | none => none
  | c :: s' =>
      match matchToks re (c :: s') [] with
      | some r => some r
      | none => searchA re s'

/-- The `while ((match = wordRegex.exec(hocrXml)) !== null)` loop: emit
each match's captures and continue after the match end (every match of
the word regex is non-empty, and `fuel` bounds the loop). -/
def execLoop (re : List RTok) :
    List Char → Nat → List (List (Nat × List Char))
  | _, 0 => []
  | s, fuel + 1 =>
      match searchA re s with
      | none => []
      | some (restS, caps) => caps :: execLoop re restS fuel

/-- Value of a capture group (`match[g]`). -/
def capLookup (caps : List (Nat × List Char)) (g : Nat) : Option (List Char) :=
  match caps.find? (fun e => e.1 == g) with
  | some e => some e.2
  | none => none

/-- Literal run of regex tokens. -/
def litToks (s : String) : List RTok := s.toList.map RTok.lit

/-- The class `['"]`. -/
def quoteCls : CharCls := CharCls.pos ['\'', '"']

/-- The class `[^'"]`. -/
def notQuote : CharCls := CharCls.neg ['\'', '"']

/-- The class `[^>]`. -/
def notGt : CharCls := CharCls.neg ['>']

/-- The class `[^<]`. -/
def notLt : CharCls := CharCls.neg ['<']

/-- The class `\d`. -/
def digitCls : CharCls :=
  CharCls.pos ['0', '1', '2', '3', '4', '5', '6', '7', '8', '9']

/-- The word regex of `parseHocr` (src/ocr/tesseract.ts):
group 1 is the title attribute, group 2 the word text. -/
def wordRegex : List RTok :=
  litToks "<span class=" ++ [RTok.one quoteCls] ++ litToks "ocrx_word" ++
  [RTok.one quoteCls] ++ [RTok.starG notGt none] ++ litToks "title=" ++
  [RTok.one quoteCls] ++ [RTok.starL notQuote (some 1)] ++
  [RTok.one quoteCls] ++ [RTok.starG notGt none] ++ [RTok.lit '>'] ++
  [RTok.starG notLt (some 2)] ++ litToks "</span>"

/-- The bbox regex of `parseHocr`: `bbox` followed by four integers. -/
def bboxRegex : List RTok :=
  litToks "bbox " ++
  [RTok.plusG digitCls (some 1), RTok.lit ' ',
   RTok.plusG digitCls (some 2), RTok.lit ' ',
   RTok.plusG digitCls (some 3), RTok.lit ' ',
   RTok.plusG digitCls (some 4)]

/-- The confidence regex of `parseHocr`: `x_wconf` and an integer. -/
def confRegex : List RTok := litToks "x_wconf " ++ [RTok.plusG digitCls (some 1)]

/-- Embeds `parseInt` on an all-digit capture. -/
def digitsToNat (cs : List Char) : Nat :=
  cs.foldl (fun n c => n * 10 + (c.toNat - 48)) 0

/-- Body of the match loop in `parseHocr`: check title and trimmed text
are truthy, extract the bbox (all four groups required), optionally the
confidence, and build the `WordPosition`; anything malformed yields
`none` (the `continue` path).  There is no degeneracy check on the box. -/
def parseWordMatch (caps : List (Nat × List Char)) : Option WordPosition :=
  let titleAttr := (capLookup caps 1).getD []
  let text := jsTrim (String.mk ((capLookup caps 2).getD []))
  if titleAttr.isEmpty ∨ text = "" then none
  else
    match searchA bboxRegex titleAttr with
    | none => none
    | some r =>
        match capLookup r.2 1, capLookup r.2 2,
              capLookup r.2 3, capLookup r.2 4 with
        | some d1, some d2, some d3, some d4 =>
            if d1.isEmpty ∨ d2.isEmpty ∨ d3.isEmpty ∨ d4.isEmpty then none
            else
              let conf :=
                match searchA confRegex titleAttr with
                | some rc =>
                    match capLookup rc.2 1 with
                    | some dc =>
                        if dc.isEmpty then none else some (digitsToNat dc)
                    | none => none
                | none => none
              some { text := text
                     bbox := { x0 := digitsToNat d1, y0 := digitsToNat d2
                               x1 := digitsToNat d3, y1 := digitsToNat d4 }
                     confidence := conf }
        | _, _, _, _ => none

/-- Embeds `parseHocr` from src/ocr/tesseract.ts: run the word regex globally
over the markup and keep every well-formed word entry, in document
order. -/
def parseHocr (hocrXml : String) : List WordPosition :=
  (execLoop wordRegex hocrXml.toList (hocrXml.toList.length + 1)).filterMap
    parseWordMatch

/-- A word entry whose box is degenerate (zero width and height). -/
def degenerateMarkup : String :=
  "<span class=\"ocrx_word\" id=\"w1\" title=\"bbox 5 5 5 5\">Hi</span>"

/-- A well-formed word entry with a confidence annotation. -/
def sampleMarkup : String :=
  "<span class=\"ocrx_word\" id=\"w1\" title=\"bbox 54 10 129 29; x_wconf 96\">Courage</span>"

/-- The word parsed from `sampleMarkup`. -/
def sampleWord : WordPosition :=
  { text := "Courage", bbox := { x0 := 54, y0 := 10, x1 := 129, y1 := 29 }
    confidence := some 96 }

end Tesseract

namespace LocalVision

lemma le_of_firstSuccessFrom (env : Nat → AttemptResult) :
    ∀ (fuel start k : Nat), firstSuccessFrom env start fuel = some k →
      start ≤ k := by
  intro fuel
  induction fuel with
  | zero => intro start k h; simp [firstSuccessFrom] at h
  | succ n ih =>
      intro start k h
      rw [firstSuccessFrom] at h
      cases henv : env start with
      | success c =>
          rw [henv] at h
          simp at h
          omega
      | failure m =>
          rw [henv] at h
          have := ih (start + 1) k h
          omega

lemma ocrGo_totalRequests (cfg : ModelConfig) (env : Nat → AttemptResult)
    (p : String) (now : Nat) :
    ∀ (r a rc : Nat) (s : ProviderState),
      ((ocrGo cfg env p now r a rc s).2).stats.totalRequests =
        s.stats.totalRequests := by
  intro r
  induction r with
  | zero => intro a rc s; simp [ocrGo, recordFailure]
  | succ n ih =>
      intro a rc s
      rw [ocrGo]
      cases henv : env a with
      | success content =>
          by_cases h : rc > 0 <;> simp [h, recordSuccess]
      | failure msg =>
          by_cases h : a = cfg.maxRetries <;> simp [h, recordFailure, ih]

lemma ocrGo_retry_found (cfg : ModelConfig) (env : Nat → AttemptResult)
    (p : String) (now : Nat) :
    ∀ (r a rc k : Nat) (s : ProviderState), a + r = cfg.maxRetries →
      firstSuccessFrom env a (r + 1) = some k →
      ((ocrGo cfg env p now (r + 1) a rc s).2.stats.totalRetries =
        s.stats.totalRetries + (k - a)) ∧
      ((ocrGo cfg env p now (r + 1) a rc s).2.stats.retriedRequests =
        s.stats.retriedRequests + if 0 < rc + (k - a) then 1 else 0) := by
  intro r
  induction r with
  | zero =>
      intro a rc k s h hfs
      rw [firstSuccessFrom] at hfs
      rw [ocrGo]
      cases henv : env a with
      | success content =>
          rw [henv] at hfs
          simp at hfs
          subst hfs
          by_cases hrc : rc > 0 <;>
            simp [hrc, recordSuccess, Nat.sub_self]
      | failure msg =>
          rw [henv] at hfs
          simp [firstSuccessFrom] at hfs
  | succ n ih =>
      intro a rc k s h hfs
      have ha : ¬ (a = cfg.maxRetries) := by omega
      rw [firstSuccessFrom] at hfs
      rw [ocrGo]
      cases henv : env a with
      | success content =>
          rw [henv] at hfs
          simp at hfs
          subst hfs
          by_cases hrc : rc > 0 <;>
            simp [hrc, recordSuccess, Nat.sub_self]
      | failure msg =>
          rw [henv] at hfs
          have hk : a + 1 ≤ k := le_of_firstSuccessFrom env (n + 1) (a + 1) k hfs
          simp only [ha, if_false]
          have ih' := ih (a + 1) (rc + 1) k
            { s with stats :=
              { s.stats with totalRetries := s.stats.totalRetries + 1 } }
            (by omega) hfs
          obtain ⟨ih1, ih2⟩ := ih'
          have c1 : 0 < rc + 1 + (k - (a + 1)) := by omega
          have c2 : 0 < rc + (k - a) := by omega
          constructor
          · rw [ih1]
            show s.stats.totalRetries + 1 + (k - (a + 1)) =
              s.stats.totalRetries + (k - a)
            omega
          · rw [ih2, if_pos c1, if_pos c2]

lemma ocrGo_retry_none (cfg : ModelConfig) (env : Nat → AttemptResult)
    (p : String) (now : Nat) :
    ∀ (r a rc : Nat) (s : ProviderState), a + r = cfg.maxRetries →
      firstSuccessFrom env a (r + 1) = none →
      ((ocrGo cfg env p now (r + 1) a rc s).2.stats.totalRetries =
        s.stats.totalRetries + (r + 1)) ∧
      ((ocrGo cfg env p now (r + 1) a rc s).2.stats.retriedRequests =
        s.stats.retriedRequests) := by
  intro r
  induction r with
  | zero =>
      intro a rc s h hfs
      have ha : a = cfg.maxRetries := by omega
      rw [firstSuccessFrom] at hfs
      rw [ocrGo]
      cases henv : env a with
      | success content => rw [henv] at hfs; simp at hfs
      | failure msg => simp [ha, recordFailure]
  | succ n ih =>
      intro a rc s h hfs
      have ha : ¬ (a = cfg.maxRetries) := by omega
      rw [firstSuccessFrom] at hfs
      rw [ocrGo]
      cases henv : env a with
      | success content => rw [henv] at hfs; simp at hfs
      | failure msg =>
          rw [henv] at hfs
          simp only [ha, if_false]
          have ih' := ih (a + 1) (rc + 1)
            { s with stats :=
              { s.stats with totalRetries := s.stats.totalRetries + 1 } }
            (by omega) hfs
          obtain ⟨ih1, ih2⟩ := ih'
          constructor
          · rw [ih1]
            show s.stats.totalRetries + 1 + (n + 1) =
              s.stats.totalRetries + (n + 1 + 1)
            omega
          · rw [ih2]

lemma recordFailure_cb (cfg : ModelConfig) (msg : String) (now : Nat)
    (s : ProviderState) :
    (recordFailure cfg msg now s).circuitBreaker =
      failedCallBreaker cfg now s.circuitBreaker := by
  simp [recordFailure, failedCallBreaker, ge_iff_le]

lemma ocrGo_failEnv_cb (cfg : ModelConfig) (msg p : String) (now : Nat) :
    ∀ (r a rc : Nat) (s : ProviderState),
      (ocrGo cfg (failEnv msg) p now r a rc s).2.circuitBreaker =
        failedCallBreaker cfg now s.circuitBreaker := by
  intro r
  induction r with
  | zero => intro a rc s; simp [ocrGo, recordFailure_cb]
  | succ n ih =>
      intro a rc s
      rw [ocrGo]
      by_cases h : a = cfg.maxRetries <;>
        simp [failEnv, h, recordFailure_cb, ih]

lemma ocr_failEnv_step (cfg : ModelConfig) (msg path : String) (t : Nat)
    (s : ProviderState) (h : s.circuitBreaker.state ≠ CircuitState.OPEN) :
    ((ocr cfg (failEnv msg) true path t s).2.circuitBreaker =
      failedCallBreaker cfg t s.circuitBreaker) ∧
    ((ocr cfg (failEnv msg) true path t s).2.stats.totalRequests =
      s.stats.totalRequests + 1) := by
  have hcheck : checkCircuitBreaker t s.circuitBreaker =
      Except.ok s.circuitBreaker := by
    rw [checkCircuitBreaker, if_neg h]
  rw [ocr]
  simp only [hcheck]
  norm_num
  constructor
  · rw [ocrGo_failEnv_cb]
  · rw [ocrGo_totalRequests]

lemma initial_not_open : initialState.circuitBreaker.state ≠ CircuitState.OPEN := by
  decide

/-- C1: with the default resilience configuration (failure threshold 5,
cooldown 60000 ms) and any retry budget `m`, five consecutive `ocr` calls
that each exhaust their retries and fail leave the circuit breaker OPEN
with `nextAttemptTime` one cooldown after the fifth failure and
`totalRequests = 5`; a further call made before that time returns the
circuit-open error immediately and leaves the provider state (hence
`totalRequests`) unchanged, uniformly in the backend environment `env` —
the backend is not invoked. -/
theorem circuit_opens_after_threshold_failures
    (m t1 t2 t3 t4 t5 t6 : Nat) (msg imagePath probePath : String)
    (env : Nat → AttemptResult)
    (h6 : t6 < t5 + 60000) :
    (afterFailedCalls { defaultConfig with maxRetries := m } msg imagePath
        [t1, t2, t3, t4, t5]).circuitBreaker.state = CircuitState.OPEN ∧
    (afterFailedCalls { defaultConfig with maxRetries := m } msg imagePath
        [t1, t2, t3, t4, t5]).circuitBreaker.nextAttemptTime = t5 + 60000 ∧
    (afterFailedCalls { defaultConfig with maxRetries := m } msg imagePath
        [t1, t2, t3, t4, t5]).stats.totalRequests = 5 ∧
    ocr { defaultConfig with maxRetries := m } env true probePath t6
        (afterFailedCalls { defaultConfig with maxRetries := m } msg imagePath
          [t1, t2, t3, t4, t5]) =
      (Except.error (OcrError.processing "circuit-breaker"
          (openMsg (t5 + 60000) t6)),
       afterFailedCalls { defaultConfig with maxRetries := m } msg imagePath
        [t1, t2, t3, t4, t5]) := by
  set cfg : ModelConfig := { defaultConfig with maxRetries := m } with hcfg
  set S1 := (ocr cfg (failEnv msg) true imagePath t1 initialState).2 with hS1
  set S2 := (ocr cfg (failEnv msg) true imagePath t2 S1).2 with hS2
  set S3 := (ocr cfg (failEnv msg) true imagePath t3 S2).2 with hS3
  set S4 := (ocr cfg (failEnv msg) true imagePath t4 S3).2 with hS4
  set S5 := (ocr cfg (failEnv msg) true imagePath t5 S4).2 with hS5
  have hfold : afterFailedCalls cfg msg imagePath [t1, t2, t3, t4, t5] = S5 := by
    rw [hS5, hS4, hS3, hS2, hS1]; rfl
  obtain ⟨c1, r1⟩ := ocr_failEnv_step cfg msg imagePath t1 initialState
    initial_not_open
  rw [← hS1] at c1 r1
  have c1' : S1.circuitBreaker =
      { state := CircuitState.CLOSED, failureCount := 1
        lastFailureTime := t1, nextAttemptTime := 0 } := by
    rw [c1]; simp [failedCallBreaker, initialState, initialBreaker, hcfg,
      defaultConfig]
  have r1' : S1.stats.totalRequests = 1 := by rw [r1]; rfl
  have h1 : S1.circuitBreaker.state ≠ CircuitState.OPEN := by
    rw [c1']; simp
  obtain ⟨c2, r2⟩ := ocr_failEnv_step cfg msg imagePath t2 S1 h1
  rw [← hS2] at c2 r2
  have c2' : S2.circuitBreaker =
      { state := CircuitState.CLOSED, failureCount := 2
        lastFailureTime := t2, nextAttemptTime := 0 } := by
    rw [c2, c1']; simp [failedCallBreaker, hcfg, defaultConfig]
  have r2' : S2.stats.totalRequests = 2 := by rw [r2, r1']
  have h2 : S2.circuitBreaker.state ≠ CircuitState.OPEN := by
    rw [c2']; simp
  obtain ⟨c3, r3⟩ := ocr_failEnv_step cfg msg imagePath t3 S2 h2
  rw [← hS3] at c3 r3
  have c3' : S3.circuitBreaker =
      { state := CircuitState.CLOSED, failureCount := 3
        lastFailureTime := t3, nextAttemptTime := 0 } := by
    rw [c3, c2']; simp [failedCallBreaker, hcfg, defaultConfig]
  have r3' : S3.stats.totalRequests = 3 := by rw [r3, r2']
  have h3 : S3.circuitBreaker.state ≠ CircuitState.OPEN := by
    rw [c3']; simp
  obtain ⟨c4, r4⟩ := ocr_failEnv_step cfg msg imagePath t4 S3 h3
  rw [← hS4] at c4 r4
  have c4' : S4.circuitBreaker =
      { state := CircuitState.CLOSED, failureCount := 4
        lastFailureTime := t4, nextAttemptTime := 0 } := by
    rw [c4, c3']; simp [failedCallBreaker, hcfg, defaultConfig]
  have r4' : S4.stats.totalRequests = 4 := by rw [r4, r3']
  have h4 : S4.circuitBreaker.state ≠ CircuitState.OPEN := by
    rw [c4']; simp
  obtain ⟨c5, r5⟩ := ocr_failEnv_step cfg msg imagePath t5 S4 h4
  rw [← hS5] at c5 r5
  have c5' : S5.circuitBreaker =
      { state := CircuitState.OPEN, failureCount := 5
        lastFailureTime := t5, nextAttemptTime := t5 + 60000 } := by
    rw [c5, c4']; simp [failedCallBreaker, hcfg, defaultConfig]
  have r5' : S5.stats.totalRequests = 5 := by rw [r5, r4']
  have hno : ¬ (t6 ≥ t5 + 60000) := by omega
  have hcheck : checkCircuitBreaker t6 S5.circuitBreaker =
      Except.error (OcrError.processing "circuit-breaker"
        (openMsg (t5 + 60000) t6)) := by
    rw [c5', checkCircuitBreaker]
    simp [hno]
  refine ⟨?_, ?_, ?_, ?_⟩
  · rw [hfold, c5']
  · rw [hfold, c5']
  · rw [hfold, r5']
  · rw [hfold, ocr]
    simp only [hcheck]
    norm_num

/-- Witness for C1 at retry budget 0 and all timestamps 0, probing at
time 5 (inside the cooldown window). -/
theorem circuit_opens_after_threshold_failures_w :
    (5 : Nat) < 0 + 60000 ∧
    ((afterFailedCalls { defaultConfig with maxRetries := 0 } "b" "i"
        [0, 0, 0, 0, 0]).circuitBreaker.state = CircuitState.OPEN ∧
    (afterFailedCalls { defaultConfig with maxRetries := 0 } "b" "i"
        [0, 0, 0, 0, 0]).circuitBreaker.nextAttemptTime = 0 + 60000 ∧
    (afterFailedCalls { defaultConfig with maxRetries := 0 } "b" "i"
        [0, 0, 0, 0, 0]).stats.totalRequests = 5 ∧
    ocr { defaultConfig with maxRetries := 0 } (failEnv "b") true "p" 5
        (afterFailedCalls { defaultConfig with maxRetries := 0 } "b" "i"
          [0, 0, 0, 0, 0]) =
      (Except.error (OcrError.processing "circuit-breaker"
          (openMsg (0 + 60000) 5)),
       afterFailedCalls { defaultConfig with maxRetries := 0 } "b" "i"
        [0, 0, 0, 0, 0])) :=
  ⟨by norm_num,
   circuit_opens_after_threshold_failures 0 0 0 0 0 0 5 "b" "i" "p"
     (failEnv "b") (by norm_num)⟩

/-- C2 (amended): each circuit-breaker mutation point
(`checkCircuitBreaker`, `recordSuccess`, `recordFailure`) performs only
the transitions CLOSED→OPEN, OPEN→HALF_OPEN, HALF_OPEN→CLOSED,
HALF_OPEN→OPEN, or stays put; and `recordFailure` moves to OPEN exactly
when the incremented consecutive-failure count reaches the threshold — so
a single failed probe in HALF_OPEN leaves the state HALF_OPEN whenever the
threshold is larger than the resulting failure count. -/
theorem circuit_breaker_transition_shape (cfg : ModelConfig)
    (now duration : Nat) (msg : String) (cb : CircuitBreaker)
    (s : ProviderState) :
    allowedTransition cb.state (postCheckState now cb) ∧
    allowedTransition s.circuitBreaker.state
      (recordSuccess duration s).circuitBreaker.state ∧
    allowedTransition s.circuitBreaker.state
      (recordFailure cfg msg now s).circuitBreaker.state ∧
    (recordFailure cfg msg now s).circuitBreaker.state =
      (if cfg.circuitBreakerThreshold ≤ s.circuitBreaker.failureCount + 1
       then CircuitState.OPEN else s.circuitBreaker.state) := by
  refine ⟨?_, ?_, ?_, ?_⟩
  · unfold postCheckState checkCircuitBreaker allowedTransition
    by_cases h1 : cb.state = CircuitState.OPEN
    · by_cases h2 : now ≥ cb.nextAttemptTime <;> simp [h1, h2]
    · simp [h1]
  · unfold recordSuccess allowedTransition
    by_cases h : s.circuitBreaker.state = CircuitState.HALF_OPEN <;> simp [h]
  · rw [recordFailure_cb]
    unfold failedCallBreaker allowedTransition
    by_cases h : cfg.circuitBreakerThreshold ≤ s.circuitBreaker.failureCount + 1
    · cases hs : s.circuitBreaker.state <;> simp [h, hs]
    · simp [h]
  · rw [recordFailure_cb]
    unfold failedCallBreaker
    by_cases h : cfg.circuitBreakerThreshold ≤ s.circuitBreaker.failureCount + 1 <;>
      simp [h]

/-- C2 counterexample: under the default configuration (threshold 5), a
single `ocr` call that exhausts its retries and fails while the breaker is
HALF_OPEN leaves the breaker in HALF_OPEN, not OPEN. -/
theorem half_open_failed_probe_not_open :
    (ocr defaultConfig (failEnv "boom") true "page.png" 0
        halfOpenState).2.circuitBreaker.state = CircuitState.HALF_OPEN ∧
    (ocr defaultConfig (failEnv "boom") true "page.png" 0
        halfOpenState).2.circuitBreaker.state ≠ CircuitState.OPEN := by
  decide

/-- C8 (amended): an `ocr` call that is admitted (file exists, breaker
check passes) increments `totalRequests` by exactly one; `totalRetries`
grows by the number of failed attempts of the call (the index of the first
successful attempt, or `maxRetries + 1` when every attempt fails) — i.e.
once per attempt, not once per call; and `retriedRequests` grows by one
exactly when the call succeeds after more than one attempt, and not at all
when the call fails. -/
theorem ocr_stats_accounting (cfg : ModelConfig) (env : Nat → AttemptResult)
    (imagePath : String) (now : Nat) (s : ProviderState) (cb : CircuitBreaker)
    (hcb : checkCircuitBreaker now s.circuitBreaker = Except.ok cb) :
    ((ocr cfg env true imagePath now s).2.stats.totalRequests =
      s.stats.totalRequests + 1) ∧
    ((ocr cfg env true imagePath now s).2.stats.totalRetries =
      s.stats.totalRetries +
        (firstSuccessFrom env 0 (cfg.maxRetries + 1)).getD (cfg.maxRetries + 1)) ∧
    ((ocr cfg env true imagePath now s).2.stats.retriedRequests =
      s.stats.retriedRequests +
        (firstSuccessFrom env 0 (cfg.maxRetries + 1)).elim 0
          (fun k => if 0 < k then 1 else 0)) := by
  rw [ocr]
  simp only [hcb]
  norm_num
  refine ⟨?_, ?_, ?_⟩
  · rw [ocrGo_totalRequests]
  · cases hfs : firstSuccessFrom env 0 (cfg.maxRetries + 1) with
    | some k =>
        obtain ⟨e1, _⟩ := ocrGo_retry_found cfg env imagePath now
          cfg.maxRetries 0 0 k
          { s with
            circuitBreaker := cb
            stats := { s.stats with totalRequests := s.stats.totalRequests + 1 } }
          (by omega) hfs
        rw [e1]
        show s.stats.totalRetries + (k - 0) = s.stats.totalRetries + (some k).getD _
        simp
    | none =>
        obtain ⟨e1, _⟩ := ocrGo_retry_none cfg env imagePath now
          cfg.maxRetries 0 0
          { s with
            circuitBreaker := cb
            stats := { s.stats with totalRequests := s.stats.totalRequests + 1 } }
          (by omega) hfs
        rw [e1]
        simp
  · cases hfs : firstSuccessFrom env 0 (cfg.maxRetries + 1) with
    | some k =>
        obtain ⟨_, e2⟩ := ocrGo_retry_found cfg env imagePath now
          cfg.maxRetries 0 0 k
          { s with
            circuitBreaker := cb
            stats := { s.stats with totalRequests := s.stats.totalRequests + 1 } }
          (by omega) hfs
        rw [e2]
        show s.stats.retriedRequests + (if 0 < 0 + (k - 0) then 1 else 0) =
          s.stats.retriedRequests + (some k).elim 0 (fun j => if 0 < j then 1 else 0)
        simp
    | none =>
        obtain ⟨_, e2⟩ := ocrGo_retry_none cfg env imagePath now
          cfg.maxRetries 0 0
          { s with
            circuitBreaker := cb
            stats := { s.stats with totalRequests := s.stats.totalRequests + 1 } }
          (by omega) hfs
        rw [e2]
        show s.stats.retriedRequests = s.stats.retriedRequests + Option.elim none 0 _
        simp

/-- Witness for C8: a fresh provider, a backend that always fails, retry
budget 3 — the call is admitted and the accounting equations hold. -/
theorem ocr_stats_accounting_w :
    (checkCircuitBreaker 0 initialState.circuitBreaker =
      Except.ok initialBreaker) ∧
    (((ocr defaultConfig (failEnv "x") true "i" 0 initialState).2.stats.totalRequests =
      initialState.stats.totalRequests + 1) ∧
    ((ocr defaultConfig (failEnv "x") true "i" 0 initialState).2.stats.totalRetries =
      initialState.stats.totalRetries +
        (firstSuccessFrom (failEnv "x") 0
          (defaultConfig.maxRetries + 1)).getD (defaultConfig.maxRetries + 1)) ∧
    ((ocr defaultConfig (failEnv "x") true "i" 0 initialState).2.stats.retriedRequests =
      initialState.stats.retriedRequests +
        (firstSuccessFrom (failEnv "x") 0
          (defaultConfig.maxRetries + 1)).elim 0
          (fun k => if 0 < k then 1 else 0))) :=
  ⟨rfl,
   ocr_stats_accounting defaultConfig (failEnv "x") "i" 0 initialState
     initialBreaker rfl⟩

/-- C8 counterexample: under the default configuration (maxRetries 3), a
single failing `ocr` call — a call that required more than one attempt —
adds 4 (one per failed attempt) to `totalRetries`, not exactly 1, and adds
nothing to `retriedRequests` because the call did not succeed. -/
theorem retry_counters_count_attempts :
    (ocr defaultConfig (failEnv "boom") true "page2.png" 0
        initialState).2.stats.totalRetries = 4 ∧
    (ocr defaultConfig (failEnv "boom") true "page2.png" 0
        initialState).2.stats.retriedRequests = 0 ∧
    (ocr defaultConfig (failEnv "boom") true "page2.png" 0
        initialState).1 =
      Except.error (OcrError.processing "page2.png" "boom") :=
  ⟨rfl, rfl, rfl⟩

end LocalVision

namespace BatchOcr

lemma runAttempts_log (env : String → Nat → Except String String)
    (rf : Bool) (path : String) :
    ∀ (rem att : Nat) (le : Option String) (q : String),
      q ∈ (runAttempts env rf path rem att le).2.2 → q = path := by
  intro rem
  induction rem with
  | zero => intro att le q h; simp [runAttempts] at h
  | succ n ih =>
      intro att le q h
      rw [runAttempts] at h
      cases henv : env path att with
      | ok text => rw [henv] at h; simp at h; exact h
      | error msg =>
          rw [henv] at h
          by_cases hb : rf = false ∨ shouldRetry msg = false
          · simp [hb] at h; exact h
          · simp [hb] at h
            rcases h with h | h
            · exact h
            · exact ih (att + 1) (some msg) q h

lemma processAll_no_abort (env : String → Nat → Except String String)
    (opts : BatchOcrOptions) (hco : opts.continueOnError = true) :
    ∀ l, (processAll env opts l).2.2.2 = none := by
  intro l
  induction l with
  | nil => rfl
  | cons p rest ih =>
      rw [processAll]
      cases ha : (runAttempts env opts.retryFailures p opts.maxRetries 0 none).1 with
      | some text => simp [ha, ih]
      | none => simp [ha, hco, ih]

lemma processAll_log (env : String → Nat → Except String String)
    (opts : BatchOcrOptions) :
    ∀ (l : List String) (q : String),
      q ∈ (processAll env opts l).2.2.1 → q ∈ l := by
  intro l
  induction l with
  | nil => intro q h; simp [processAll] at h
  | cons p rest ih =>
      intro q h
      rw [processAll] at h
      cases ha : (runAttempts env opts.retryFailures p opts.maxRetries 0 none).1 with
      | some text =>
          rw [ha] at h
          simp at h
          rcases h with h | h
          · rw [runAttempts_log env opts.retryFailures p opts.maxRetries 0 none q h]
            exact List.mem_cons_self _ _
          · exact List.mem_cons_of_mem _ (ih q h)
      | none =>
          rw [ha] at h
          by_cases hco : opts.continueOnError = true
          · simp [hco] at h
            rcases h with h | h
            · rw [runAttempts_log env opts.retryFailures p opts.maxRetries 0 none q h]
              exact List.mem_cons_self _ _
            · exact List.mem_cons_of_mem _ (ih q h)
          · simp [hco] at h
            rw [runAttempts_log env opts.retryFailures p opts.maxRetries 0 none q h]
            exact List.mem_cons_self _ _

lemma missing_length (fE : String → Bool) :
    ∀ paths : List String,
      (paths.filterMap fun p =>
        if fE p then none else some (p, "File not found")).length =
        paths.countP (fun p => !fE p) := by
  intro paths
  induction paths with
  | nil => rfl
  | cons p rest ih =>
      by_cases h : fE p <;>
        simp [List.filterMap_cons, h, List.countP_cons, ih]

lemma missing_mem (fE : String → Bool) :
    ∀ (paths : List String) (p : String), p ∈ paths → fE p = false →
      (p, "File not found") ∈ paths.filterMap
        (fun q => if fE q then none else some (q, "File not found")) := by
  intro paths
  induction paths with
  | nil => intro p h; simp at h
  | cons q rest ih =>
      intro p hp hfe
      rcases List.mem_cons.mp hp with h | h
      · subst h
        simp [List.filterMap_cons, hfe]
      · by_cases hq : fE q <;>
          simp [List.filterMap_cons, hq, ih p h hfe]

lemma runAttempts_calls_path (env : String → Nat → Except String String)
    (rf : Bool) (path : String) :
    ∀ (rem att : Nat) (le : Option String), 0 < rem →
      path ∈ (runAttempts env rf path rem att le).2.2 := by
  intro rem
  cases rem with
  | zero => intro att le h; omega
  | succ n =>
      intro att le _
      rw [runAttempts]
      cases henv : env path att with
      | ok text => simp
      | error msg =>
          by_cases hb : rf = false ∨ shouldRetry msg = false <;> simp [hb]

lemma processAll_covers (env : String → Nat → Except String String)
    (opts : BatchOcrOptions) (hco : opts.continueOnError = true) :
    ∀ (l : List String) (p : String), p ∈ l →
      (∃ t, (p, t) ∈ (processAll env opts l).1) ∨
      (∃ e, (p, e) ∈ (processAll env opts l).2.1) := by
  intro l
  induction l with
  | nil => intro p h; simp at h
  | cons q rest ih =>
      intro p hp
      rw [processAll]
      cases ha : (runAttempts env opts.retryFailures q opts.maxRetries 0 none).1 with
      | some text =>
          simp only [ha]
          rcases List.mem_cons.mp hp with h | h
          · subst h; exact Or.inl ⟨text, List.mem_cons_self _ _⟩
          · rcases ih p h with ⟨t, ht⟩ | ⟨e, he⟩
            · exact Or.inl ⟨t, List.mem_cons_of_mem _ ht⟩
            · exact Or.inr ⟨e, he⟩
      | none =>
          simp only [ha, hco, if_true]
          rcases List.mem_cons.mp hp with h | h
          · subst h; exact Or.inr ⟨_, List.mem_cons_self _ _⟩
          · rcases ih p h with ⟨t, ht⟩ | ⟨e, he⟩
            · exact Or.inl ⟨t, ht⟩
            · exact Or.inr ⟨e, List.mem_cons_of_mem _ he⟩

lemma processAll_lengths (env : String → Nat → Except String String)
    (opts : BatchOcrOptions) (hco : opts.continueOnError = true) :
    ∀ l : List String,
      (processAll env opts l).1.length + (processAll env opts l).2.1.length =
        l.length := by
  intro l
  induction l with
  | nil => rfl
  | cons q rest ih =>
      rw [processAll]
      cases ha : (runAttempts env opts.retryFailures q opts.maxRetries 0 none).1 with
      | some text =>
          simp only [ha, List.length_cons]
          omega
      | none =>
          simp only [ha, hco, if_true, List.length_cons]
          omega

lemma processAll_calls (env : String → Nat → Except String String)
    (opts : BatchOcrOptions) (hco : opts.continueOnError = true)
    (hmr : 0 < opts.maxRetries) :
    ∀ (l : List String) (p : String), p ∈ l →
      p ∈ (processAll env opts l).2.2.1 := by
  intro l
  induction l with
  | nil => intro p h; simp at h
  | cons q rest ih =>
      intro p hp
      rw [processAll]
      cases ha : (runAttempts env opts.retryFailures q opts.maxRetries 0 none).1 with
      | some text =>
          simp only [ha]
          rcases List.mem_cons.mp hp with h | h
          · subst h
            exact List.mem_append_left _
              (runAttempts_calls_path env opts.retryFailures p opts.maxRetries
                0 none hmr)
          · exact List.mem_append_right _ (ih p h)
      | none =>
          simp only [ha, hco, if_true]
          rcases List.mem_cons.mp hp with h | h
          · subst h
            exact List.mem_append_left _
              (runAttempts_calls_path env opts.retryFailures p opts.maxRetries
                0 none hmr)
          · exact List.mem_append_right _ (ih p h)

lemma filter_split_length (fE : String → Bool) :
    ∀ paths : List String,
      (paths.filter (fun p => fE p)).length +
        paths.countP (fun p => !fE p) = paths.length := by
  intro paths
  induction paths with
  | nil => rfl
  | cons p rest ih =>
      by_cases h : fE p <;>
        simp [List.filter_cons, h, List.countP_cons, ih] <;> omega

/-- C9: for a batch with `K` missing files (under `continueOnError`, the
default), `performBatchOcr` succeeds with at least `K` failures, each
missing path recorded with the not-found reason, no `provider.ocr` call is
made for any missing path (every logged call is to an existing path), and
the remaining `N - K` existing paths are still processed: each existing
path ends up in `results` or `failures`, receives at least one
`provider.ocr` call whenever the retry budget is positive, every path is
accounted for (`results.length + failures.length = N`), and the stats
satisfy `total = N`, `successful = results.length`,
`failed = failures.length`. -/
theorem performBatchOcr_missing_files (fileExists : String → Bool)
    (env : String → Nat → Except String String) (paths : List String)
    (opts : BatchOcrOptions) (startTime endTime : Nat) (K : Nat)
    (hco : opts.continueOnError = true)
    (hK : K = paths.countP (fun p => !fileExists p)) :
    ∃ r log,
      performBatchOcr fileExists env paths opts startTime endTime =
        (Except.ok r, log) ∧
      K ≤ r.failures.length ∧
      (∀ p ∈ paths, fileExists p = false → (p, "File not found") ∈ r.failures) ∧
      (∀ p ∈ log, fileExists p = true) ∧
      (∀ p ∈ paths, fileExists p = true →
        (∃ t, (p, t) ∈ r.results) ∨ (∃ e, (p, e) ∈ r.failures)) ∧
      (0 < opts.maxRetries → ∀ p ∈ paths, fileExists p = true → p ∈ log) ∧
      r.results.length + r.failures.length = paths.length ∧
      r.stats.total = paths.length ∧
      r.stats.successful = r.results.length ∧
      r.stats.failed = r.failures.length := by
  have hab := processAll_no_abort env opts
    hco (paths.filter fun p => fileExists p)
  rw [performBatchOcr]
  simp only [hab]
  refine ⟨_, _, rfl, ?_, ?_, ?_, ?_, ?_, ?_, rfl, rfl, rfl⟩
  · have hlen := missing_length fileExists paths
    simp only [List.length_append]
    omega
  · intro p hp hfe
    exact List.mem_append_left _ (missing_mem fileExists paths p hp hfe)
  · intro p hp
    have := processAll_log env opts (paths.filter fun q => fileExists q) p hp
    exact List.of_mem_filter this
  · intro p hp hfe
    have hv : p ∈ paths.filter (fun q => fileExists q) :=
      List.mem_filter.mpr ⟨hp, hfe⟩
    rcases processAll_covers env opts hco _ p hv with ⟨t, ht⟩ | ⟨e, he⟩
    · exact Or.inl ⟨t, ht⟩
    · exact Or.inr ⟨e, List.mem_append_right _ he⟩
  · intro hmr p hp hfe
    exact processAll_calls env opts hco hmr _ p
      (List.mem_filter.mpr ⟨hp, hfe⟩)
  · have h1 := processAll_lengths env opts hco
      (paths.filter fun p => fileExists p)
    have h2 := missing_length fileExists paths
    have h3 := filter_split_length fileExists paths
    simp only [List.length_append]
    omega

/-- Witness for C9: the spec scenario — batch of 3 images, 1 missing on
disk, 2 succeed, with the resulting record pinned:
`results = [("a","text"), ("c","text")]`,
`failures = [("b","File not found")]`,
`stats = (total 3, successful 2, failed 1)`. -/
theorem performBatchOcr_missing_files_w :
    defaultOptions.continueOnError = true ∧
    (1 : Nat) = (["a", "b", "c"] : List String).countP (fun p => !wFileExists p) ∧
    ((performBatchOcr wFileExists wEnv ["a", "b", "c"] defaultOptions 0
        0).1.map
      (fun r => (r.results, r.failures, r.stats.total, r.stats.successful,
        r.stats.failed))) =
      Except.ok ([("a", "text"), ("c", "text")], [("b", "File not found")],
        3, 2, 1) ∧
    (∃ r log,
      performBatchOcr wFileExists wEnv ["a", "b", "c"] defaultOptions 0 0 =
        (Except.ok r, log) ∧
      1 ≤ r.failures.length ∧
      (∀ p ∈ (["a", "b", "c"] : List String), wFileExists p = false →
        (p, "File not found") ∈ r.failures) ∧
      (∀ p ∈ log, wFileExists p = true) ∧
      (∀ p ∈ (["a", "b", "c"] : List String), wFileExists p = true →
        (∃ t, (p, t) ∈ r.results) ∨ (∃ e, (p, e) ∈ r.failures)) ∧
      (0 < defaultOptions.maxRetries →
        ∀ p ∈ (["a", "b", "c"] : List String), wFileExists p = true →
          p ∈ log) ∧
      r.results.length + r.failures.length =
        (["a", "b", "c"] : List String).length ∧
      r.stats.total = (["a", "b", "c"] : List String).length ∧
      r.stats.successful = r.results.length ∧
      r.stats.failed = r.failures.length) :=
  ⟨rfl, by decide, rfl,
   performBatchOcr_missing_files wFileExists wEnv ["a", "b", "c"]
     defaultOptions 0 0 1 rfl (by decide)⟩

end BatchOcr

namespace SearchablePdf

lemma calculateFontSize_eq (text : String) (pageWidth pageHeight : ℚ) :
    calculateFontSize text pageWidth pageHeight =
      max 4 (min 14
        (if ((Int.ceil ((text.length : ℚ) / 80) : ℤ) : ℚ) *
              ((pageWidth - 2 * 10) / (80 * (1 / 2))) * (12 / 10) >
            pageHeight - 2 * 10 then
          ((pageWidth - 2 * 10) / (80 * (1 / 2))) *
            ((pageHeight - 2 * 10) /
              (((Int.ceil ((text.length : ℚ) / 80) : ℤ) : ℚ) *
                ((pageWidth - 2 * 10) / (80 * (1 / 2))) * (12 / 10)))
        else (pageWidth - 2 * 10) / (80 * (1 / 2)))) := rfl

lemma clamp_budget (L f H : ℚ) (hL0 : 0 ≤ L) (hfit : L * 4 * (12 / 10) ≤ H) :
    L * (max 4 (min 14
        (if L * f * (12 / 10) > H then f * (H / (L * f * (12 / 10))) else f))) *
      (12 / 10) ≤ H := by
  have hH0 : 0 ≤ H :=
    le_trans (mul_nonneg (mul_nonneg hL0 (by norm_num)) (by norm_num)) hfit
  split_ifs with hscale
  · rcases le_or_lt (min 14 (f * (H / (L * f * (12 / 10))))) 4 with hm | hm
    · rw [max_eq_left hm]; exact hfit
    · rw [max_eq_right (le_of_lt hm)]
      rcases hL0.eq_or_lt with h0 | hLpos
      · exfalso; rw [← h0] at hscale; simp at hscale; linarith
      have hfpos : 0 < f := by
        by_contra hf
        push_neg at hf
        have hnp : L * f ≤ 0 := mul_nonpos_of_nonneg_of_nonpos hLpos.le hf
        nlinarith
      have hval : L * (f * (H / (L * f * (12 / 10)))) * (12 / 10) = H := by
        field_simp
        ring
      have h1 : min 14 (f * (H / (L * f * (12 / 10)))) ≤
          f * (H / (L * f * (12 / 10))) := min_le_right _ _
      have hmono := mul_nonneg hLpos.le (sub_nonneg.mpr h1)
      nlinarith
  · push_neg at hscale
    rcases le_or_lt (min 14 f) 4 with hm | hm
    · rw [max_eq_left hm]; exact hfit
    · rw [max_eq_right (le_of_lt hm)]
      have h1 : min 14 f ≤ f := min_le_right _ _
      have hmono := mul_nonneg hL0 (sub_nonneg.mpr h1)
      nlinarith

/-- C4 (amended): whenever the text fits the page-height budget even at
the minimum clamped font size of 4pt — i.e.
`ceil(len/80) * 4 * 1.2 ≤ pageHeight - 2*margin` — the font size returned
by `calculateFontSize` keeps the estimated total rendered height within
the budget: `ceil(len/80) * fontSize * 1.2 ≤ pageHeight - 2*margin`.
(Without that proviso the lower clamp can push the size back up to 4pt
and overflow the budget.) -/
theorem font_size_within_budget (text : String) (pageWidth pageHeight : ℚ)
    (hfit : ((Int.ceil ((text.length : ℚ) / 80) : ℤ) : ℚ) * 4 * (12 / 10) ≤
      pageHeight - 2 * 10) :
    ((Int.ceil ((text.length : ℚ) / 80) : ℤ) : ℚ) *
        calculateFontSize text pageWidth pageHeight * (12 / 10) ≤
      pageHeight - 2 * 10 := by
  have hL0 : (0 : ℚ) ≤ ((Int.ceil ((text.length : ℚ) / 80) : ℤ) : ℚ) := by
    have h0 : (0 : ℤ) ≤ Int.ceil ((text.length : ℚ) / 80) :=
      Int.ceil_nonneg (by positivity)
    exact_mod_cast h0
  rw [calculateFontSize_eq]
  exact clamp_budget _ _ _ hL0 hfit

lemma hello_ceil : Int.ceil (((("hello" : String).length : ℚ)) / 80) = 1 := by
  rw [show ("hello" : String).length = 5 from rfl]
  rw [Int.ceil_eq_iff]
  constructor <;> norm_num

/-- Witness for C4: a short text on a US-letter-sized page. -/
theorem font_size_within_budget_w :
    ((Int.ceil ((("hello" : String).length : ℚ) / 80) : ℤ) : ℚ) * 4 * (12 / 10) ≤
        (792 : ℚ) - 2 * 10 ∧
    ((Int.ceil ((("hello" : String).length : ℚ) / 80) : ℤ) : ℚ) *
        calculateFontSize "hello" 612 792 * (12 / 10) ≤ (792 : ℚ) - 2 * 10 :=
  ⟨by rw [hello_ceil]; norm_num,
   font_size_within_budget "hello" 612 792 (by rw [hello_ceil]; norm_num)⟩

/-- C4 counterexample: for `longText` on a 100×29 page the budget is
`29 - 20 = 9`, but the clamp returns 4pt and the estimated height is
`2 * 4 * 1.2 = 9.6 > 9` — the returned font size exceeds the page height
budget. -/
theorem font_size_overflows_budget :
    ¬ (((Int.ceil ((longText.length : ℚ) / 80) : ℤ) : ℚ) *
        calculateFontSize longText 100 29 * (12 / 10) ≤ (29 : ℚ) - 2 * 10) := by
  have hceil : Int.ceil ((longText.length : ℚ) / 80) = 2 := by
    rw [show longText.length = 81 from rfl]
    rw [Int.ceil_eq_iff]
    constructor <;> norm_num
  rw [calculateFontSize_eq, hceil]
  norm_num [min_def, max_def]

/-- C10: when a chunk's text is empty or whitespace-only, the exporter
adds no invisible text layer at all — the page consists of exactly the
page and its visible image — even when `wordPositions` is non-empty. -/
theorem empty_text_no_layer (dims : String → Option (Nat × Nat))
    (chunk : ContentChunk) (w h : Nat)
    (hd : dims chunk.screenshot = some (w, h)) (hw : w ≠ 0) (hh : h ≠ 0)
    (ht : jsTrim chunk.text = "") :
    addSearchablePage dims chunk =
      Except.ok [PdfOp.addPage w h, PdfOp.image chunk.screenshot 0 0 w h] := by
  rw [addSearchablePage, hd]
  have hcond : ¬ (chunk.text ≠ "" ∧ 0 < (jsTrim chunk.text).length) := by
    rw [ht]; simp
  simp [hw, hh, hcond]

/-- Witness for C10: the whitespace-only chunk with word positions still
produces only the page and image operations. -/
theorem empty_text_no_layer_w :
    wDims wChunk.screenshot = some (100, 200) ∧ (100 : Nat) ≠ 0 ∧
    (200 : Nat) ≠ 0 ∧ jsTrim wChunk.text = "" ∧
    addSearchablePage wDims wChunk =
      Except.ok [PdfOp.addPage 100 200,
        PdfOp.image wChunk.screenshot 0 0 100 200] :=
  ⟨rfl, by decide, by decide, by decide,
   empty_text_no_layer wDims wChunk 100 200 rfl (by decide) (by decide)
     (by decide)⟩

end SearchablePdf

namespace RunStateM

/-- C7 (amended): `completeRunState` and `failRunState` set the status
unconditionally — applied to an already-terminal state they overwrite it
(a FAILED state becomes COMPLETED and vice versa); terminality is not
enforced by the run-state operations themselves. -/
theorem finalizers_unconditional (s : RunState) (reason : String)
    (t u : Nat) :
    (completeRunState s t).status = RunStatus.completed ∧
    (failRunState s reason t).status = RunStatus.failed ∧
    (completeRunState (failRunState s reason t) u).status =
      RunStatus.completed ∧
    (failRunState (completeRunState s t) reason u).status =
      RunStatus.failed :=
  ⟨rfl, rfl, rfl, rfl⟩

/-- C7 counterexample: a freshly failed run state passed to
`completeRunState` comes back COMPLETED — the terminal FAILED status is
not preserved. -/
theorem terminal_status_overwritten :
    (failRunState (createRunState "b" none "ocr" "tesseract" 0) "boom"
      1).status = RunStatus.failed ∧
    (completeRunState
      (failRunState (createRunState "b" none "ocr" "tesseract" 0) "boom" 1)
      2).status = RunStatus.completed ∧
    RunStatus.completed ≠ RunStatus.failed :=
  ⟨rfl, rfl, by decide⟩

end RunStateM

namespace Orchestrator

/-- C5 counterexample: with a backend whose recognition fails
unrecoverably on the very first page, the per-page loop returns the error
(no page is recorded with empty text), and the whole export run is
aborted: `orchestrateBookExport` reports failure with zero pages and
saves a FAILED run state. -/
theorem ocr_failure_aborts_run_cx :
    captureAndOcrPages c5Env c5Opts 0 10 = Except.error "ocr boom" ∧
    (orchestrateBookExport c5Env c5Opts "Meta" "tesseract" none 0 10).1.success
      = false ∧
    ((orchestrateBookExport c5Env c5Opts "Meta" "tesseract" none 0
        10).2.map (fun s => s.status)) = some RunStateM.RunStatus.failed ∧
    (orchestrateBookExport c5Env c5Opts "Meta" "tesseract" none 0
        10).1.totalPages = 0 :=
  ⟨rfl, rfl, rfl, rfl⟩

/-- C5 (amended): an unrecoverable OCR failure on the first page processed
propagates out of `captureAndOcrPages` (the page is not recorded and no
further page is processed), and `orchestrateBookExport` catches it, marks
a fresh run state FAILED, saves it, and returns `success = false` — the
OCR failure aborts the capture/export run instead of being recorded as an
empty-text page. -/
theorem ocr_failure_aborts_run (env : CaptureEnv) (opts : OrchestratorOptions)
    (es : RunStateM.RunState) (metaTitle ocrEngine t msg : String)
    (now fuel : Nat)
    (hrep : ∀ p, env.reportedPage p = some p)
    (hdry : opts.dryRun = false)
    (hfuel : 0 < fuel)
    (htitle : opts.bookTitle = some t)
    (hocr : env.ocrResult (env.screenshotPath (resumeStart es.lastPage)) =
      Except.error msg) :
    captureAndOcrPages env opts es.lastPage fuel = Except.error msg ∧
    orchestrateBookExport env opts metaTitle ocrEngine (some es) now fuel =
      ({ success := false, bookTitle := t, totalPages := 0
         error := some msg },
       some (RunStateM.failRunState
         (RunStateM.createRunState t opts.asin "ocr" ocrEngine now)
         msg now)) := by
  have h0 : resumeStart es.lastPage ≠ 0 := by
    unfold resumeStart; split <;> omega
  have hcap : captureAndOcrPages env opts es.lastPage fuel =
      Except.error msg := by
    cases fuel with
    | zero => omega
    | succ f =>
        rw [captureAndOcrPages, captureLoop, hrep (resumeStart es.lastPage)]
        simp [capturePage, h0, hdry, hocr]
  refine ⟨hcap, ?_⟩
  rw [orchestrateBookExport]
  simp [hcap, htitle]

/-- Witness for C5: a three-hypothesis instance — fresh state
(`lastPage = 0`), fuel 10, failing backend. -/
theorem ocr_failure_aborts_run_w :
    (∀ p, c5Env.reportedPage p = some p) ∧
    c5Opts.dryRun = false ∧ (0 : Nat) < 10 ∧
    c5Opts.bookTitle = some "Book" ∧
    c5Env.ocrResult (c5Env.screenshotPath (resumeStart
      (RunStateM.createRunState "B" none "ocr" "tesseract" 0).lastPage)) =
      Except.error "ocr boom" ∧
    (captureAndOcrPages c5Env c5Opts
        (RunStateM.createRunState "B" none "ocr" "tesseract" 0).lastPage 10 =
      Except.error "ocr boom" ∧
    orchestrateBookExport c5Env c5Opts "Meta" "tesseract"
        (some (RunStateM.createRunState "B" none "ocr" "tesseract" 0)) 0 10 =
      ({ success := false, bookTitle := "Book", totalPages := 0
         error := some "ocr boom" },
       some (RunStateM.failRunState
         (RunStateM.createRunState "Book" none "ocr" "tesseract" 0)
         "ocr boom" 0))) :=
  ⟨fun _ => rfl, rfl, by decide, rfl, rfl,
   ocr_failure_aborts_run c5Env c5Opts
     (RunStateM.createRunState "B" none "ocr" "tesseract" 0)
     "Meta" "tesseract" "Book" "ocr boom" 0 10
     (fun _ => rfl) rfl (by decide) rfl rfl⟩

lemma captureLoop_pages (env : CaptureEnv) (opts : OrchestratorOptions)
    (hrep : ∀ p, env.reportedPage p = some p) :
    ∀ (fuel bp pn : Nat) (acc pages : List ContentChunk), 1 ≤ bp →
      captureLoop env opts fuel bp pn acc = Except.ok pages →
      ∃ rest, pages = acc ++ rest ∧ (∀ c ∈ rest, bp ≤ c.page) ∧
        (0 < fuel → ∃ text rest2, rest =
          ({ index := bp - 1, page := bp, text := text
             screenshot := env.screenshotPath bp
             wordPositions := none } : ContentChunk) :: rest2) := by
  intro fuel
  induction fuel with
  | zero =>
      intro bp pn acc pages hbp h
      rw [captureLoop] at h
      refine ⟨[], ?_, ?_, ?_⟩
      · simpa using h.symm
      · intro c hc; simp at hc
      · intro hf; omega
  | succ f ih =>
      intro bp pn acc pages hbp h
      rw [captureLoop, hrep bp] at h
      have hbp0 : ¬ (bp = 0) := by omega
      simp only [hbp0, if_false, capturePage] at h
      cases hocr : (if opts.dryRun then Except.ok "" else
          env.ocrResult (env.screenshotPath bp)) with
      | error e => rw [hocr] at h; simp at h
      | ok text =>
          rw [hocr] at h
          simp only at h
          by_cases hstop : (opts.maxPages ≠ 0 ∧
              opts.maxPages ≤ (acc ++
                [({ index := bp - 1, page := bp, text := text
                    screenshot := env.screenshotPath bp
                    wordPositions := none } : ContentChunk)]).length) ∨
              env.isLast bp = true
          · rw [if_pos hstop] at h
            refine ⟨[{ index := bp - 1, page := bp, text := text
                       screenshot := env.screenshotPath bp
                       wordPositions := none }], ?_, ?_, ?_⟩
            · simp at h; simp [h.symm]
            · intro c hc; simp at hc; subst hc; simp
            · intro _; exact ⟨text, [], rfl⟩
          · rw [if_neg hstop] at h
            by_cases hnav : env.navSuccess bp = false
            · rw [if_pos hnav] at h
              refine ⟨[{ index := bp - 1, page := bp, text := text
                         screenshot := env.screenshotPath bp
                         wordPositions := none }], ?_, ?_, ?_⟩
              · simp at h; simp [h.symm]
              · intro c hc; simp at hc; subst hc; simp
              · intro _; exact ⟨text, [], rfl⟩
            · rw [if_neg hnav] at h
              obtain ⟨rest', hp, hge, _⟩ :=
                ih (bp + 1) (pn + 1) (acc ++
                  [({ index := bp - 1, page := bp, text := text
                      screenshot := env.screenshotPath bp
                      wordPositions := none } : ContentChunk)]) pages
                  (by omega) h
              refine ⟨({ index := bp - 1, page := bp, text := text
                         screenshot := env.screenshotPath bp
                         wordPositions := none } : ContentChunk) :: rest',
                ?_, ?_, ?_⟩
              · rw [hp, List.append_assoc]; rfl
              · intro c hc
                rcases List.mem_cons.mp hc with hc | hc
                · subst hc; simp
                · exact le_trans (by omega) (hge c hc)
              · intro _; exact ⟨text, rest', rfl⟩

/-- C6 (amended): restarting from a persisted state with
`lastPage = L ≥ 2` pre-navigates `L - 1` pages, so pages `1..L-1` are
never re-captured (every processed page number is `≥ L`), but the first
page processed is page `L` itself — `lastPage`, not `lastPage + 1` — so
page `L` IS re-captured and re-recognized. -/
theorem resume_continues_at_last_page (env : CaptureEnv)
    (opts : OrchestratorOptions) (L fuel : Nat) (pages : List ContentChunk)
    (hrep : ∀ p, env.reportedPage p = some p)
    (hL : 2 ≤ L) (hfuel : 0 < fuel)
    (hok : captureAndOcrPages env opts L fuel = Except.ok pages) :
    (∀ c ∈ pages, L ≤ c.page) ∧
    (∃ text rest, pages =
      ({ index := L - 1, page := L, text := text
         screenshot := env.screenshotPath L
         wordPositions := none } : ContentChunk) :: rest) := by
  have hrs : resumeStart L = L := by
    unfold resumeStart; rw [if_pos (by omega)]; omega
  rw [captureAndOcrPages] at hok
  simp only [hrs] at hok
  have hL0 : ¬ (L = 0) := by omega
  rw [if_neg hL0] at hok
  obtain ⟨rest, hp, hge, hhead⟩ :=
    captureLoop_pages env opts hrep fuel L L [] pages (by omega) hok
  simp at hp
  subst hp
  exact ⟨hge, hhead hfuel⟩

/-- C6 counterexample: resuming a 9-page book from `lastPage = 7`
processes pages 7, 8, 9 — the first page processed is 7, not 8, so page 7
(already recorded by the interrupted run) is captured and recognized
again. -/
theorem resume_reprocesses_last_page :
    (captureAndOcrPages c6Env c6Opts 7 20).map
        (fun ps => ps.map (fun c => c.page)) = Except.ok [7, 8, 9] ∧
    (7 : Nat) ≠ 8 :=
  ⟨rfl, by decide⟩

/-- Witness for C6 (amended theorem) at the `lastPage = 7` scenario. -/
theorem resume_continues_at_last_page_w :
    (∀ p, c6Env.reportedPage p = some p) ∧ (2 : Nat) ≤ 7 ∧ (0 : Nat) < 20 ∧
    captureAndOcrPages c6Env c6Opts 7 20 = Except.ok c6Pages ∧
    ((∀ c ∈ c6Pages, 7 ≤ c.page) ∧
     (∃ text rest, c6Pages =
        ({ index := 6, page := 7, text := text
           screenshot := c6Env.screenshotPath 7
           wordPositions := none } : ContentChunk) :: rest)) :=
  ⟨fun _ => rfl, by decide, by decide, rfl,
   resume_continues_at_last_page c6Env c6Opts 7 20 c6Pages
     (fun _ => rfl) (by decide) (by decide) rfl⟩

end Orchestrator

namespace Tesseract

lemma parseWordMatch_text (caps : List (Nat × List Char)) (w : WordPosition)
    (h : parseWordMatch caps = some w) : w.text ≠ "" := by
  rw [parseWordMatch] at h
  by_cases hcond : ((capLookup caps 1).getD []).isEmpty = true ∨
      jsTrim (String.mk ((capLookup caps 2).getD [])) = ""
  · rw [if_pos hcond] at h; exact absurd h (by simp)
  · rw [if_neg hcond] at h
    push_neg at hcond
    obtain ⟨-, htext⟩ := hcond
    cases hsa : searchA bboxRegex ((capLookup caps 1).getD []) with
    | none => rw [hsa] at h; simp at h
    | some r =>
        rw [hsa] at h
        simp only at h
        cases h1 : capLookup r.2 1 with
        | none => rw [h1] at h; simp at h
        | some d1 =>
            cases h2 : capLookup r.2 2 with
            | none => rw [h1, h2] at h; simp at h
            | some d2 =>
                cases h3 : capLookup r.2 3 with
                | none => rw [h1, h2, h3] at h; simp at h
                | some d3 =>
                    cases h4 : capLookup r.2 4 with
                    | none => rw [h1, h2, h3, h4] at h; simp at h
                    | some d4 =>
                        rw [h1, h2, h3, h4] at h
                        simp only at h
                        by_cases he : d1.isEmpty = true ∨ d2.isEmpty = true ∨
                            d3.isEmpty = true ∨ d4.isEmpty = true
                        · rw [if_pos he] at h; exact absurd h (by simp)
                        · rw [if_neg he] at h
                          simp only [Option.some_inj] at h
                          rw [← h]
                          exact htext

/-- C3 (amended): for every input markup string the word-geometry parser
returns a (possibly empty) list without throwing — it is a total
function — and entries missing a well-formed box or text are skipped, so
every stored word has non-empty (trimmed) text.  Degenerate boxes,
however, are stored verbatim: no `x1 > x0` / `y1 > y0` guarantee holds
(see the counterexample). -/
theorem parseHocr_skips_textless_entries (s : String) (w : WordPosition)
    (hw : w ∈ parseHocr s) : w.text ≠ "" := by
  rw [parseHocr] at hw
  rcases List.mem_filterMap.mp hw with ⟨caps, -, hsome⟩
  exact parseWordMatch_text caps w hsome

/-- C3 counterexample: the parser stores the degenerate box verbatim —
the stored word has `x0 = x1 = 5` and `y0 = y1 = 5`, violating
`x1 > x0 ∧ y1 > y0`; nothing discards it. -/
theorem parseHocr_keeps_degenerate_box :
    parseHocr degenerateMarkup =
      [{ text := "Hi", bbox := { x0 := 5, y0 := 5, x1 := 5, y1 := 5 }
         confidence := none }] ∧
    ¬ ((5 : Nat) < 5 ∧ (5 : Nat) < 5) :=
  ⟨rfl, by decide⟩

/-- Witness for C3: the sample word is parsed from the sample markup and
has non-empty text. -/
theorem parseHocr_skips_textless_entries_w :
    sampleWord ∈ parseHocr sampleMarkup ∧ sampleWord.text ≠ "" :=
  have hp : parseHocr sampleMarkup = [sampleWord] := rfl
  ⟨hp ▸ List.mem_cons_self _ _,
   parseHocr_skips_textless_entries sampleMarkup sampleWord
     (hp ▸ List.mem_cons_self _ _)⟩

end Tesseract
